import Mathlib

/-
Verification of the rusty-stl mesh analyzer.

Modelling conventions:
- Rust f32 values are modelled as exact rationals.  Floating-point rounding is
  not modelled; where a claim depends on an IEEE special value (division by
  zero producing NaN) the computation is carried out in the wrapper type
  FVal, whose division returns FVal.nan on a zero divisor.  In this
  development a zero divisor only ever occurs together with a zero dividend,
  so the IEEE distinction between 0/0 = NaN and x/0 = plus or minus infinity
  never matters here.
- Rust panics (unwrap, expect, out-of-bounds indexing, asserts inside library
  calls) are modelled as the Outcome.fatal constructor, recoverable errors as
  Outcome.err / Except.error.  This keeps the difference between "returns a
  construction error" and "aborts" observable, which several claims are about.
- The external geometry library (ray casting, convex hull, the median helper,
  the triangle-mesh constructor) is not part of this repository.  Where its
  behaviour decides a claim it is modelled from the spec; such definitions
  carry a doc comment starting with "Modelled from the spec:".  The ray
  caster and the hull algorithm are taken as oracle parameters, so the
  theorems quantify over every caster / hull builder satisfying the contract
  the spec describes.
-/

namespace RustyStl

/-- A 3D vector with exact rational components, modelling stl_io / parry
Vector and Point values (f32 components in the source). -/
structure Vec3 where
  x : ℚ
  y : ℚ
  z : ℚ
deriving DecidableEq, Repr

def Vec3.sub (a b : Vec3) : Vec3 := ⟨a.x - b.x, a.y - b.y, a.z - b.z⟩

def Vec3.neg (a : Vec3) : Vec3 := ⟨-a.x, -a.y, -a.z⟩

/-- vector_dot from src/main.rs. -/
def vector_dot (a b : Vec3) : ℚ := a.x * b.x + a.y * b.y + a.z * b.z

/-- vector_cross from src/main.rs. -/
def vector_cross (a b : Vec3) : Vec3 :=
  ⟨a.y * b.z - a.z * b.y, a.z * b.x - a.x * b.z, a.x * b.y - a.y * b.x⟩

/-- vol_triangle_sgn from src/main.rs: dot(p1, cross(p2, p3)) / 6. -/
def vol_triangle_sgn (p1 p2 p3 : Vec3) : ℚ :=
  vector_dot p1 (vector_cross p2 p3) / 6

/-- A face of an stl_io IndexedMesh: the three vertex indices of one
triangle.  The stl_io face also stores a normal, which this program never
reads, so it is omitted. -/
structure Face where
  v0 : ℕ
  v1 : ℕ
  v2 : ℕ
deriving DecidableEq, Repr

/-- stl_io IndexedMesh: an ordered vertex list plus an ordered face list. -/
structure IndexedMesh where
  vertices : List Vec3
  faces : List Face
deriving DecidableEq, Repr

/-- Vertex lookup mesh.vertices[i].  The source indexes directly and would
panic on an out-of-range index; the model totalizes with a default and the
theorems that depend on lookups carry the mesh invariant (every index in
range) as a hypothesis. -/
def IndexedMesh.vertexAt (m : IndexedMesh) (i : ℕ) : Vec3 :=
  m.vertices.getD i ⟨0, 0, 0⟩

/-- The MeshModel invariant from the spec data model: every face index is in
range of the vertex list. -/
def IndexedMesh.WellFormed (m : IndexedMesh) : Prop :=
  ∀ f ∈ m.faces, f.v0 < m.vertices.length ∧ f.v1 < m.vertices.length ∧
    f.v2 < m.vertices.length

instance (m : IndexedMesh) : Decidable m.WellFormed := by
  unfold IndexedMesh.WellFormed; infer_instance

/-- volume from src/main.rs: a single running sum over the faces, in face
order, of vol_triangle_sgn of the three looked-up vertices. -/
def volume (m : IndexedMesh) : ℚ :=
  m.faces.foldl
    (fun sum face =>
      sum + vol_triangle_sgn (m.vertexAt face.v0) (m.vertexAt face.v1)
        (m.vertexAt face.v2))
    0

/-- The exact value of f32::MAX, used as the initial minimum sentinel of the
bounding-box reduction (f32::MIN is its negation). -/
def f32MAX : ℚ := (2 ^ 24 - 1) * 2 ^ 104

/-- BoundingBox from src/main.rs. -/
structure BoundingBox where
  xmin : ℚ
  xmax : ℚ
  ymin : ℚ
  ymax : ℚ
  zmin : ℚ
  zmax : ℚ
deriving DecidableEq, Repr

/-- BoundingBox::volume from src/main.rs. -/
def BoundingBox.volume (b : BoundingBox) : ℚ :=
  |b.xmax - b.xmin| * |b.ymax - b.ymin| * |b.zmax - b.zmin|

/-- One iteration of the vertex loop of impl From for BoundingBox in
src/main.rs.  The updates happen in source order on the mutable struct, so
the zmax assignment on line 52 reads the xmax value already updated in this
iteration; note that line reads bbox.xmax, not bbox.zmax, and overwrites
zmax with max(xmax, vertex z). -/
def bboxStep (b : BoundingBox) (v : Vec3) : BoundingBox :=
  let xmin := min b.xmin v.x
  let ymin := min b.ymin v.y
  let zmin := min b.zmin v.z
  let xmax := max b.xmax v.x
  let ymax := max b.ymax v.y
  let zmax := max xmax v.z
  ⟨xmin, xmax, ymin, ymax, zmin, zmax⟩

/-- BoundingBox::from in src/main.rs (named ofMesh because from is a
keyword): fold of bboxStep over the vertices from the f32 MAX/MIN
sentinels. -/
def BoundingBox.ofMesh (m : IndexedMesh) : BoundingBox :=
  m.vertices.foldl bboxStep ⟨f32MAX, -f32MAX, f32MAX, -f32MAX, f32MAX, -f32MAX⟩

/-- One step of the bounding-box reduction as the spec words it: the
componentwise minimum and maximum on each of the three axes independently. -/
def specBBoxStep (b : BoundingBox) (v : Vec3) : BoundingBox :=
  ⟨min b.xmin v.x, max b.xmax v.x, min b.ymin v.y, max b.ymax v.y,
    min b.zmin v.z, max b.zmax v.z⟩

/-- The bounding box as the spec describes it, for comparison with
BoundingBox.ofMesh. -/
def specBoundingBox (m : IndexedMesh) : BoundingBox :=
  m.vertices.foldl specBBoxStep
    ⟨f32MAX, -f32MAX, f32MAX, -f32MAX, f32MAX, -f32MAX⟩

/-- Reversing the winding order of every triangle: swap the last two entries
of each index triple. -/
def reverseWinding (m : IndexedMesh) : IndexedMesh :=
  ⟨m.vertices, m.faces.map fun f => ⟨f.v0, f.v2, f.v1⟩⟩

/- ----------------------------------------------------------------- -/
/- src/src/geometry.rs                                               -/
/- ----------------------------------------------------------------- -/

/-- Result of running a piece of Rust code: a normal value, a recoverable
error value (Result::Err), or a panic (unwrap / expect / out-of-bounds /
assert).  Distinguishing err from fatal is the point of several
error-handling claims. -/
inductive Outcome (α : Type) where
  | ok (a : α)
  | err (e : String)
  | fatal (msg : String)
deriving DecidableEq, Repr

def Outcome.isErr {α : Type} : Outcome α → Bool
  | .err _ => true
  | _ => false

/-- OutlierLimits from src/src/geometry.rs. -/
structure OutlierLimits where
  min : ℚ
  max : ℚ
deriving DecidableEq, Repr

/-- An f32 value that may be NaN.  Arithmetic propagates NaN; division by
zero yields NaN (see the file header note). -/
inductive FVal where
  | nan
  | val (q : ℚ)
deriving DecidableEq, Repr

def FVal.add : FVal → FVal → FVal
  | .val a, .val b => .val (a + b)
  | _, _ => .nan

def FVal.sub : FVal → FVal → FVal
  | .val a, .val b => .val (a - b)
  | _, _ => .nan

def FVal.mul : FVal → FVal → FVal
  | .val a, .val b => .val (a * b)
  | _, _ => .nan

def FVal.div : FVal → FVal → FVal
  | .val a, .val b => if b = 0 then .nan else .val (a / b)
  | _, _ => .nan

/-- A running f32 sum, in list order, starting from 0.0. -/
def fsum (l : List FVal) : FVal := l.foldl FVal.add (FVal.val 0)

/-- A triangle view, as yielded by the triangles iterator (parry Triangle
with fields a, b, c). -/
structure Tri where
  a : Vec3
  b : Vec3
  c : Vec3
deriving DecidableEq, Repr

/-- The triangle-mesh storage behind StlMesh: a vertex buffer plus index
triples. -/
structure StlMesh where
  verts : List Vec3
  tris : List (ℕ × ℕ × ℕ)
deriving DecidableEq, Repr

def StlMesh.vertexAt (m : StlMesh) (i : ℕ) : Vec3 := m.verts.getD i ⟨0, 0, 0⟩

/-- The triangles iterator: one Tri per index triple, in face order. -/
def StlMesh.triangles (m : StlMesh) : List Tri :=
  m.tris.map fun t => ⟨m.vertexAt t.1, m.vertexAt t.2.1, m.vertexAt t.2.2⟩

/-- Modelled from the spec: the triangle normal of the external library is
the normalized cross product of two edge vectors and is undefined exactly
when that cross product has zero length.  The normalizing factor is
irrational in general, so the model keeps the unnormalized cross product;
only its direction reaches the (oracle-modelled) ray caster, and
zero-length-ness is unaffected. -/
def crossEdges (t : Tri) : Vec3 :=
  vector_cross (Vec3.sub t.b t.a) (Vec3.sub t.c t.a)

/-- The centroid computed in calculate_thickness (called midpoint there). -/
def triMidpoint (t : Tri) : Vec3 :=
  ⟨(t.a.x + t.b.x + t.c.x) / 3, (t.a.y + t.b.y + t.c.y) / 3,
    (t.a.z + t.b.z + t.c.z) / 3⟩

/-- Modelled from the spec: the external mesh ray caster, taken as an oracle
parameter.  Arguments: ray origin, ray direction, maximum time of impact
(the source always passes 100).  Returns the impact distance of the nearest
hit, or none on a miss. -/
def CastFn : Type := Vec3 → Vec3 → ℚ → Option ℚ

/-- Modelled from the spec: the external triangle area (irrational in
general), taken as an oracle parameter. -/
def AreaFn : Type := Tri → ℚ

/-- The body of the triangle loop of StlMesh::calculate_thickness
(src/src/geometry.rs lines 110-140) for one triangle: unwrap the normal
(panics when it is undefined), cast the two opposed rays with maximum
distance 100 from the centroid, and when both hit, keep the larger distance
as the thickness sample if it lies strictly inside the outlier band,
paired with the triangle area as its weight. -/
def triangleSamples (cast : CastFn) (area : AreaFn) (bounds : OutlierLimits)
    (t : Tri) : Outcome (List (ℚ × ℚ)) :=
  if crossEdges t = ⟨0, 0, 0⟩ then
    Outcome.fatal "called unwrap on a None value"
  else
    match cast (triMidpoint t) (crossEdges t) 100,
        cast (triMidpoint t) (Vec3.neg (crossEdges t)) 100 with
    | some da, some db =>
      let thickness := if da > db then da else db
      if thickness > bounds.min ∧ thickness < bounds.max then
        Outcome.ok [(thickness, area t)]
      else
        Outcome.ok []
    | _, _ => Outcome.ok []

/-- The triangle loop of calculate_thickness over a triangle list, in face
order, collecting the retained (thickness, area) pairs. -/
def thicknessLoop (cast : CastFn) (area : AreaFn) (bounds : OutlierLimits) :
    List Tri → Outcome (List (ℚ × ℚ))
  | [] => Outcome.ok []
  | t :: rest =>
    match triangleSamples cast area bounds t with
    | Outcome.fatal msg => Outcome.fatal msg
    | Outcome.err e => Outcome.err e
    | Outcome.ok s =>
      match thicknessLoop cast area bounds rest with
      | Outcome.fatal msg => Outcome.fatal msg
      | Outcome.err e => Outcome.err e
      | Outcome.ok l => Outcome.ok (s ++ l)

def insertSorted (a : ℚ) : List ℚ → List ℚ
  | [] => [a]
  | b :: rest => if a ≤ b then a :: b :: rest else b :: insertSorted a rest

def sortSamples (l : List ℚ) : List ℚ := l.foldr insertSorted []

/-- Modelled from the spec: the external median helper sorts the samples and
picks the middle element (the upper middle for even counts).  On an empty
list the middle element does not exist, so the call cannot return a value:
none models its failure there. -/
def medianModel (l : List ℚ) : Option ℚ := (sortSamples l)[l.length / 2]?

/-- Statistics from src/src/geometry.rs.  The stdSq field holds the value of
the std helper before its final f32::sqrt: the square root is strictly
monotone on nonnegative reals, fixes zero and maps NaN to NaN, so zero-ness,
NaN-ness and every comparison of the reported standard deviation are exactly
those of this field, while the root itself is irrational in general. -/
structure StatisticsM where
  avg : FVal
  median : ℚ
  stdSq : FVal
  thicknesses : List ℚ
deriving DecidableEq, Repr

/-- std from src/src/geometry.rs lines 216-219, up to the final sqrt: the
running sum of squared deviations from the given center, divided by the
sample count.  On an empty list this divides 0.0 by 0.0, which is NaN. -/
def stdF (it : List ℚ) (avg : FVal) : FVal :=
  FVal.div
    (fsum (it.map fun t =>
      FVal.mul (FVal.sub (FVal.val t) avg) (FVal.sub (FVal.val t) avg)))
    (FVal.val it.length)

/-- average from src/src/geometry.rs lines 206-208 (the unweighted mean). -/
def average (it : List ℚ) : ℚ := it.sum / it.length

/-- The avg computation of calculate_thickness (src/src/geometry.rs lines
142-147): the running sum of t*a/total_area where total_area is the sum of
the areas. -/
def aggAvg (thicknesses areas : List ℚ) : FVal :=
  fsum ((thicknesses.zip areas).map fun p =>
    FVal.div (FVal.val (p.1 * p.2)) (FVal.val areas.sum))

/-- The statistics aggregation of calculate_thickness
(src/src/geometry.rs lines 142-157): the running sum of t*a/total_area, the
library median of the samples, and std around the value just computed as
avg (the area-weighted average). -/
def aggregateStats (thicknesses areas : List ℚ) : Outcome StatisticsM :=
  match medianModel thicknesses with
  | none => Outcome.fatal "median of an empty sample sequence"
  | some med =>
    Outcome.ok
      ⟨aggAvg thicknesses areas, med,
        stdF thicknesses (aggAvg thicknesses areas), thicknesses⟩

/-- The area-weighted average, as the spec words it. -/
def weightedAvg (ts as : List ℚ) : ℚ :=
  ((ts.zip as).map fun p => p.1 * p.2).sum / as.sum

/-- The mean of the squared deviations of the samples from a given center:
the squared standard deviation around that center. -/
def varianceAround (ts : List ℚ) (c : ℚ) : ℚ :=
  (ts.map fun t => (t - c) * (t - c)).sum / ts.length

/-- The bounds resolution at the top of calculate_thickness: a missing
outlier range means the band (0, f32::MAX). -/
def resolveBounds : Option OutlierLimits → OutlierLimits
  | some r => r
  | none => ⟨0, f32MAX⟩

/-- StlMesh::calculate_thickness: resolve the band, run the triangle loop,
then aggregate the retained samples. -/
def calculateThickness (cast : CastFn) (area : AreaFn) (m : StlMesh)
    (outlierRange : Option OutlierLimits) : Outcome StatisticsM :=
  match thicknessLoop cast area (resolveBounds outlierRange) m.triangles with
  | Outcome.fatal msg => Outcome.fatal msg
  | Outcome.err e => Outcome.err e
  | Outcome.ok pairs =>
    aggregateStats (pairs.map Prod.fst) (pairs.map Prod.snd)

/-- Modelled from the spec: the external triangle-mesh constructor
TriMesh::with_flags, per the MeshModel contract of the spec: it fails with a
construction error if the vertex or index list is empty, if an index is out
of range, or if an index triple does not resolve to three distinct
vertices. -/
def triMeshWithFlags (vs : List Vec3) (is : List (ℕ × ℕ × ℕ)) :
    Except String StlMesh :=
  if vs = [] then Except.error "empty vertex buffer"
  else if is = [] then Except.error "empty index buffer"
  else if ∃ t ∈ is, vs.length ≤ t.1 ∨ vs.length ≤ t.2.1 ∨ vs.length ≤ t.2.2 then
    Except.error "index out of range"
  else if ∃ t ∈ is,
      vs.getD t.1 ⟨0, 0, 0⟩ = vs.getD t.2.1 ⟨0, 0, 0⟩ ∨
      vs.getD t.1 ⟨0, 0, 0⟩ = vs.getD t.2.2 ⟨0, 0, 0⟩ ∨
      vs.getD t.2.1 ⟨0, 0, 0⟩ = vs.getD t.2.2 ⟨0, 0, 0⟩ then
    Except.error "degenerate index triple"
  else Except.ok ⟨vs, is⟩

/-- The vertex chunking of StlMesh::new: groups of three coordinates.  A
trailing chunk of fewer than three elements makes the source index past the
chunk end, a panic, modelled as none. -/
def chunk3q : List ℚ → Option (List Vec3)
  | [] => some []
  | x :: y :: z :: rest => (chunk3q rest).map fun l => Vec3.mk x y z :: l
  | _ => none

/-- The index chunking of StlMesh::new, as chunk3q. -/
def chunk3n : List ℕ → Option (List (ℕ × ℕ × ℕ))
  | [] => some []
  | i :: j :: k :: rest => (chunk3n rest).map fun l => (i, j, k) :: l
  | _ => none

/-- StlMesh::new from src/src/geometry.rs: chunk the flat buffers, build the
triangle mesh, and expect the result — any construction error becomes the
panic "Could not create trimesh"; the function has no error channel. -/
def StlMesh.new (vertices : List ℚ) (indices : List ℕ) : Outcome StlMesh :=
  match chunk3q vertices, chunk3n indices with
  | some vs, some is =>
    match triMeshWithFlags vs is with
    | Except.error _ => Outcome.fatal "Could not create trimesh"
    | Except.ok tm => Outcome.ok tm
  | _, _ => Outcome.fatal "index out of bounds"

/-- Modelled from the spec: the external convex-hull builder, taken as an
oracle parameter: it returns the hull vertex/index buffers or a
degenerate-geometry error when fewer than 4 non-coplanar points exist. -/
def HullFn : Type := List Vec3 → Except String (List Vec3 × List (ℕ × ℕ × ℕ))

def det3 (u v w : Vec3) : ℚ := vector_dot u (vector_cross v w)

/-- Whether the point list contains four non-coplanar (affinely independent)
points; its negation is the degenerate-point-cloud condition of the spec
(fewer than 4 points, all collinear, or all coplanar). -/
def FourNonCoplanar (pts : List Vec3) : Prop :=
  ∃ a ∈ pts, ∃ b ∈ pts, ∃ c ∈ pts, ∃ d ∈ pts,
    det3 (Vec3.sub b a) (Vec3.sub c a) (Vec3.sub d a) ≠ 0

instance (pts : List Vec3) : Decidable (FourNonCoplanar pts) := by
  unfold FourNonCoplanar; infer_instance

/-- StlMesh::convex from src/src/geometry.rs, parametrized by the hull
oracle.  The library hull call used by the source returns bare buffers (its
internal failure surfaces as a panic, since the signature has no error
channel), and the following expect on the mesh constructor panics as well:
no path returns an error value. -/
def convexWith (hull : HullFn) (m : StlMesh) : Outcome StlMesh :=
  match hull m.verts with
  | Except.error _ => Outcome.fatal "convex hull construction failed"
  | Except.ok (vs, is) =>
    match triMeshWithFlags vs is with
    | Except.error _ => Outcome.fatal "Could not create trimesh"
    | Except.ok tm => Outcome.ok tm

/- Concrete inputs used by witnesses, counterexamples and evaluations. -/

/-- A unit cube: 8 vertices, 12 outward-wound triangles. -/
def cubeMesh : IndexedMesh :=
  ⟨[⟨0, 0, 0⟩, ⟨1, 0, 0⟩, ⟨1, 1, 0⟩, ⟨0, 1, 0⟩,
    ⟨0, 0, 1⟩, ⟨1, 0, 1⟩, ⟨1, 1, 1⟩, ⟨0, 1, 1⟩],
   [⟨0, 2, 1⟩, ⟨0, 3, 2⟩, ⟨4, 5, 6⟩, ⟨4, 6, 7⟩,
    ⟨0, 1, 5⟩, ⟨0, 5, 4⟩, ⟨2, 3, 7⟩, ⟨2, 7, 6⟩,
    ⟨0, 4, 7⟩, ⟨0, 7, 3⟩, ⟨1, 2, 6⟩, ⟨1, 6, 5⟩]⟩

/-- Two vertices whose x extent exceeds every z coordinate: the input on
which line 52 of src/main.rs pollutes zmax with xmax. -/
def skewMesh : IndexedMesh := ⟨[⟨2, 0, 0⟩, ⟨0, 1, 1⟩], []⟩

/-- A single face over three vertices, used by witnesses. -/
def tetraFaceMesh : IndexedMesh :=
  ⟨[⟨1, 0, 0⟩, ⟨0, 1, 0⟩, ⟨0, 0, 1⟩], [⟨0, 1, 2⟩]⟩

def castNone : CastFn := fun _ _ _ => none

def cast50 : CastFn := fun _ _ _ => some 50

def cast100 : CastFn := fun _ _ _ => some 100

def areaZero : AreaFn := fun _ => 0

def defaultBounds : OutlierLimits := ⟨0, f32MAX⟩

def goodTri : Tri := ⟨⟨0, 0, 0⟩, ⟨1, 0, 0⟩, ⟨0, 1, 0⟩⟩

/-- A mesh whose first triangle is ordinary and whose second triangle has
three distinct but collinear vertices, hence a zero-length normal. -/
def degenMesh : StlMesh :=
  ⟨[⟨0, 0, 0⟩, ⟨1, 0, 0⟩, ⟨0, 1, 0⟩, ⟨2, 0, 0⟩], [(0, 1, 2), (0, 1, 3)]⟩

/-- Three coplanar points with one triangle: a degenerate point cloud for
the hull, and a valid single-triangle mesh for the thickness loop. -/
def planarMesh : StlMesh := ⟨[⟨0, 0, 0⟩, ⟨1, 0, 0⟩, ⟨0, 1, 0⟩], [(0, 1, 2)]⟩

/-- A concrete hull oracle satisfying the spec contract: it errors exactly
on degenerate point clouds. -/
def hullSpecModel : HullFn := fun pts =>
  if FourNonCoplanar pts then Except.ok (pts, [(0, 1, 2)])
  else Except.error "degenerate point cloud"

/- ----------------------------------------------------------------- -/
/- Helper lemmas                                                     -/
/- ----------------------------------------------------------------- -/

theorem foldl_add_eq_sum {β : Type} (g : β → ℚ) (l : List β) (a : ℚ) :
    l.foldl (fun s x => s + g x) a = a + (l.map g).sum := by
  induction l generalizing a with
  | nil => simp
  | cons x xs ih =>
    simp only [List.foldl_cons, List.map_cons, List.sum_cons, ih]
    ring

theorem sum_map_neg {β : Type} (g : β → ℚ) (l : List β) :
    (l.map fun x => -g x).sum = -(l.map g).sum := by
  induction l with
  | nil => simp
  | cons x xs ih => simp [ih]; ring

theorem sum_map_div {β : Type} (g : β → ℚ) (c : ℚ) (l : List β) :
    (l.map fun x => g x / c).sum = (l.map g).sum / c := by
  induction l with
  | nil => simp
  | cons x xs ih => simp [ih]; ring

theorem vol_triangle_sgn_swap (p1 p2 p3 : Vec3) :
    vol_triangle_sgn p1 p3 p2 = -vol_triangle_sgn p1 p2 p3 := by
  simp only [vol_triangle_sgn, vector_dot, vector_cross]
  ring

/- ----------------------------------------------------------------- -/
/- Claim theorems                                                    -/
/- ----------------------------------------------------------------- -/

/-- C1: evaluation of the bounding-box computation.  The unit-cube part of
the claim holds: on the unit cube the computed extents are (1,1,1) and the
box volume is 1.  The componentwise part does not: on the two-vertex mesh
(2,0,0),(0,1,1), line 52 of src/main.rs (zmax assigned from xmax) yields a
box of volume 4 where the componentwise extents of the spec give volume 2. -/
theorem C1_boundingBox_eval :
    ((BoundingBox.ofMesh cubeMesh).xmax - (BoundingBox.ofMesh cubeMesh).xmin = 1 ∧
      (BoundingBox.ofMesh cubeMesh).ymax - (BoundingBox.ofMesh cubeMesh).ymin = 1 ∧
      (BoundingBox.ofMesh cubeMesh).zmax - (BoundingBox.ofMesh cubeMesh).zmin = 1 ∧
      (BoundingBox.ofMesh cubeMesh).volume = 1) ∧
    (BoundingBox.ofMesh skewMesh).volume = 4 ∧
    (specBoundingBox skewMesh).volume = 2 := by
  norm_num [BoundingBox.ofMesh, BoundingBox.volume, bboxStep, specBoundingBox,
    specBBoxStep, cubeMesh, skewMesh, f32MAX, min_def, max_def]

/-- C2: for every mesh satisfying the index invariant, the signed volume is
the single running left-fold, in face order, of dot(p1, cross(p2, p3)) / 6
over the faces, and hence the sum of these per-face terms. -/
theorem C2_volume_formula (m : IndexedMesh) (_h : m.WellFormed) :
    volume m =
      m.faces.foldl
        (fun s f => s + vector_dot (m.vertexAt f.v0)
          (vector_cross (m.vertexAt f.v1) (m.vertexAt f.v2)) / 6) 0 ∧
    volume m =
      (m.faces.map fun f => vector_dot (m.vertexAt f.v0)
        (vector_cross (m.vertexAt f.v1) (m.vertexAt f.v2)) / 6).sum := by
  constructor
  · rfl
  · have h2 : volume m = 0 + (m.faces.map fun f =>
        vol_triangle_sgn (m.vertexAt f.v0) (m.vertexAt f.v1)
          (m.vertexAt f.v2)).sum :=
      foldl_add_eq_sum _ _ _
    rw [h2, zero_add]
    simp [vol_triangle_sgn]

theorem C2_volume_formula_witness : volume tetraFaceMesh = 1 / 6 :=
  (C2_volume_formula tetraFaceMesh (by decide)).2.trans (by
    norm_num [tetraFaceMesh, IndexedMesh.vertexAt, vector_dot, vector_cross])

/-- C8: reversing the winding order of every triangle (swapping the last two
entries of each index triple) negates the signed volume exactly. -/
theorem C8_reverse_winding (m : IndexedMesh) (_h : m.WellFormed) :
    volume (reverseWinding m) = -volume m := by
  have h1 : volume (reverseWinding m) = 0 + ((reverseWinding m).faces.map fun f =>
      vol_triangle_sgn (m.vertexAt f.v0) (m.vertexAt f.v1)
        (m.vertexAt f.v2)).sum :=
    foldl_add_eq_sum _ _ _
  have h2 : volume m = 0 + (m.faces.map fun f =>
      vol_triangle_sgn (m.vertexAt f.v0) (m.vertexAt f.v1)
        (m.vertexAt f.v2)).sum :=
    foldl_add_eq_sum _ _ _
  rw [h1, h2, zero_add, zero_add]
  simp only [reverseWinding, List.map_map]
  have hfun : ((fun f : Face => vol_triangle_sgn (m.vertexAt f.v0)
        (m.vertexAt f.v1) (m.vertexAt f.v2)) ∘
      fun f : Face => Face.mk f.v0 f.v2 f.v1) =
      fun f : Face => -vol_triangle_sgn (m.vertexAt f.v0) (m.vertexAt f.v1)
        (m.vertexAt f.v2) := by
    funext f
    exact vol_triangle_sgn_swap _ _ _
  rw [hfun, sum_map_neg]

theorem C8_reverse_winding_witness :
    volume (reverseWinding tetraFaceMesh) = -volume tetraFaceMesh :=
  C8_reverse_winding tetraFaceMesh (by decide)

/- Helper lemmas for the aggregation and the thickness loop. -/

theorem insertSorted_length (a : ℚ) (l : List ℚ) :
    (insertSorted a l).length = l.length + 1 := by
  induction l with
  | nil => rfl
  | cons b rest ih =>
    by_cases h : a ≤ b <;> simp [insertSorted, h, ih]

theorem sortSamples_length (l : List ℚ) : (sortSamples l).length = l.length := by
  induction l with
  | nil => rfl
  | cons a rest ih =>
    simp [sortSamples, List.foldr_cons, insertSorted_length]
    simpa [sortSamples] using ih

theorem medianModel_isSome (l : List ℚ) (h : l ≠ []) :
    ∃ m, medianModel l = some m := by
  unfold medianModel
  have hl : l.length / 2 < (sortSamples l).length := by
    rw [sortSamples_length]
    have hpos : 0 < l.length := List.length_pos.mpr h
    omega
  exact ⟨_, List.getElem?_eq_getElem hl⟩

theorem fsum_map_val {β : Type} (g : β → ℚ) (l : List β) :
    fsum (l.map fun x => FVal.val (g x)) = FVal.val (l.map g).sum := by
  suffices h : ∀ a : ℚ,
      (l.map fun x => FVal.val (g x)).foldl FVal.add (FVal.val a) =
        FVal.val (a + (l.map g).sum) by
    simpa [fsum] using h 0
  induction l with
  | nil => intro a; simp
  | cons x xs ih =>
    intro a
    rw [List.map_cons, List.foldl_cons,
      show FVal.add (FVal.val a) (FVal.val (g x)) = FVal.val (a + g x) from rfl,
      ih, List.map_cons, List.sum_cons]
    congr 1
    ring

theorem aggregateStats_thicknesses (ts as : List ℚ) (st : StatisticsM)
    (h : aggregateStats ts as = Outcome.ok st) : st.thicknesses = ts := by
  unfold aggregateStats at h
  cases hm : medianModel ts with
  | none => rw [hm] at h; exact absurd h (by simp)
  | some med =>
    rw [hm] at h
    injection h with h
    rw [← h]

theorem triangleSamples_le (cast : CastFn) (area : AreaFn)
    (bounds : OutlierLimits) (t : Tri)
    (hcast : ∀ o d r, cast o d 100 = some r → r ≤ 100)
    (s : List (ℚ × ℚ)) (hs : triangleSamples cast area bounds t = Outcome.ok s) :
    ∀ p ∈ s, p.1 ≤ 100 := by
  intro p hp
  unfold triangleSamples at hs
  by_cases h0 : crossEdges t = ⟨0, 0, 0⟩
  · rw [if_pos h0] at hs; exact absurd hs (by simp)
  · rw [if_neg h0] at hs
    cases h1 : cast (triMidpoint t) (crossEdges t) 100 with
    | none =>
      rw [h1] at hs
      injection hs with hs
      rw [← hs] at hp
      simp at hp
    | some da =>
      cases h2 : cast (triMidpoint t) (Vec3.neg (crossEdges t)) 100 with
      | none =>
        rw [h1, h2] at hs
        injection hs with hs
        rw [← hs] at hp
        simp at hp
      | some db =>
        rw [h1, h2] at hs
        dsimp only at hs
        have hda : da ≤ 100 := hcast _ _ _ h1
        have hdb : db ≤ 100 := hcast _ _ _ h2
        split at hs
        · split at hs
          · injection hs with hs
            rw [← hs] at hp
            simp at hp
            subst hp
            exact hda
          · injection hs with hs
            rw [← hs] at hp
            simp at hp
        · split at hs
          · injection hs with hs
            rw [← hs] at hp
            simp at hp
            subst hp
            exact hdb
          · injection hs with hs
            rw [← hs] at hp
            simp at hp

theorem thicknessLoop_le (cast : CastFn) (area : AreaFn)
    (bounds : OutlierLimits)
    (hcast : ∀ o d r, cast o d 100 = some r → r ≤ 100) :
    ∀ (ts : List Tri) (l : List (ℚ × ℚ)),
      thicknessLoop cast area bounds ts = Outcome.ok l → ∀ p ∈ l, p.1 ≤ 100 := by
  intro ts
  induction ts with
  | nil =>
    intro l hl p hp
    unfold thicknessLoop at hl
    injection hl with hl
    rw [← hl] at hp
    simp at hp
  | cons t rest ih =>
    intro l hl p hp
    unfold thicknessLoop at hl
    cases hts : triangleSamples cast area bounds t with
    | fatal msg => rw [hts] at hl; exact absurd hl (by simp)
    | err e => rw [hts] at hl; exact absurd hl (by simp)
    | ok s =>
      rw [hts] at hl
      cases hrest : thicknessLoop cast area bounds rest with
      | fatal msg => rw [hrest] at hl; exact absurd hl (by simp)
      | err e => rw [hrest] at hl; exact absurd hl (by simp)
      | ok l2 =>
        rw [hrest] at hl
        injection hl with hl
        rw [← hl] at hp
        rcases List.mem_append.mp hp with hp1 | hp2
        · exact triangleSamples_le cast area bounds t hcast s hts p hp1
        · exact ih l2 hrest p hp2

/-- C3 (code-bug evaluation): on the empty sample sequence the aggregation
does not return zero sentinels: the (library) median of an empty list has no
value, so the call fails, and the std helper divides 0 by 0, which is NaN in
IEEE arithmetic — neither is the zero the claim promises. -/
theorem C3_empty_samples_eval :
    aggregateStats [] [] = Outcome.fatal "median of an empty sample sequence" ∧
    stdF [] (FVal.val 0) = FVal.nan := ⟨rfl, rfl⟩

/-- C4 (code-bug evaluation): on a mesh whose second triangle is degenerate
(three distinct collinear vertices, zero-length cross product), the
thickness computation panics at the normal unwrap instead of skipping the
triangle, even though the first triangle was processed fine. -/
theorem C4_degenerate_triangle_eval :
    calculateThickness castNone areaZero degenMesh none =
      Outcome.fatal "called unwrap on a None value" := by
  norm_num [calculateThickness, thicknessLoop, triangleSamples, degenMesh,
    StlMesh.triangles, StlMesh.vertexAt, crossEdges, vector_cross, Vec3.sub,
    castNone, resolveBounds]

/-- C5: for any ray caster and any triangle with a defined normal, every
thickness sample the loop body emits equals the larger of the two cast
distances when both opposed rays hit, and no sample is emitted when either
ray misses. -/
theorem C5_sample_rule (cast : CastFn) (area : AreaFn) (bounds : OutlierLimits)
    (t : Tri) (h : crossEdges t ≠ ⟨0, 0, 0⟩) :
    (∀ da db,
        cast (triMidpoint t) (crossEdges t) 100 = some da →
        cast (triMidpoint t) (Vec3.neg (crossEdges t)) 100 = some db →
        ∀ l, triangleSamples cast area bounds t = Outcome.ok l →
          ∀ p ∈ l, p.1 = max da db) ∧
    ((cast (triMidpoint t) (crossEdges t) 100 = none ∨
        cast (triMidpoint t) (Vec3.neg (crossEdges t)) 100 = none) →
      triangleSamples cast area bounds t = Outcome.ok []) := by
  constructor
  · intro da db hda hdb l hl p hp
    unfold triangleSamples at hl
    rw [if_neg h, hda, hdb] at hl
    dsimp only at hl
    split at hl
    · rename_i hgt
      split at hl
      · injection hl with hl
        rw [← hl] at hp
        simp at hp
        subst hp
        exact (max_eq_left (le_of_lt hgt)).symm
      · injection hl with hl
        rw [← hl] at hp
        simp at hp
    · rename_i hgt
      split at hl
      · injection hl with hl
        rw [← hl] at hp
        simp at hp
        subst hp
        exact (max_eq_right (not_lt.mp hgt)).symm
      · injection hl with hl
        rw [← hl] at hp
        simp at hp
  · intro hmiss
    unfold triangleSamples
    rw [if_neg h]
    rcases hmiss with hm | hm
    · rw [hm]
    · cases h1 : cast (triMidpoint t) (crossEdges t) 100 with
      | none => rfl
      | some da => rw [hm]

theorem C5_sample_rule_witness : ((50 : ℚ), (0 : ℚ)).1 = max 50 50 :=
  (C5_sample_rule cast50 areaZero defaultBounds goodTri
      (by norm_num [crossEdges, goodTri, vector_cross, Vec3.sub])).1
    50 50 rfl rfl [(50, 0)]
    (by norm_num [triangleSamples, crossEdges, goodTri, vector_cross,
      Vec3.sub, triMidpoint, cast50, areaZero, defaultBounds, f32MAX])
    (50, 0) (by simp)

/-- C6 (amended): for every non-empty sample sequence with nonzero total
area, the reported average is the area-weighted average and the reported
standard deviation (squared) is computed around that area-weighted average,
not around the unweighted mean. -/
theorem C6_aggregation (ts as : List ℚ) (hts : ts ≠ []) (hA : as.sum ≠ 0) :
    aggregateStats ts as =
      Outcome.ok
        ⟨FVal.val (weightedAvg ts as), (medianModel ts).getD 0,
          FVal.val (varianceAround ts (weightedAvg ts as)), ts⟩ := by
  obtain ⟨med, hmed⟩ := medianModel_isSome ts hts
  have havg : aggAvg ts as = FVal.val (weightedAvg ts as) := by
    unfold aggAvg
    have h1 : (fun p : ℚ × ℚ => FVal.div (FVal.val (p.1 * p.2)) (FVal.val as.sum))
        = fun p : ℚ × ℚ => FVal.val (p.1 * p.2 / as.sum) := by
      funext p
      simp [FVal.div, hA]
    rw [h1, fsum_map_val, weightedAvg, sum_map_div]
  have hlen : ((ts.length : ℚ)) ≠ 0 := by
    have h0 : ts.length ≠ 0 := by simpa [List.length_eq_zero] using hts
    exact_mod_cast Nat.cast_ne_zero.mpr h0
  have hstd : stdF ts (FVal.val (weightedAvg ts as)) =
      FVal.val (varianceAround ts (weightedAvg ts as)) := by
    unfold stdF
    have h1 : (ts.map fun t =>
        FVal.mul (FVal.sub (FVal.val t) (FVal.val (weightedAvg ts as)))
          (FVal.sub (FVal.val t) (FVal.val (weightedAvg ts as))))
        = ts.map fun t =>
            FVal.val ((t - weightedAvg ts as) * (t - weightedAvg ts as)) := by
      simp [FVal.mul, FVal.sub]
    rw [h1, fsum_map_val]
    simp [FVal.div, hlen, varianceAround]
  unfold aggregateStats
  rw [hmed]
  dsimp only
  simp only [havg, hstd, Option.getD_some]

theorem C6_aggregation_witness :
    aggregateStats [0, 2] [1, 3] =
      Outcome.ok
        ⟨FVal.val (weightedAvg [0, 2] [1, 3]),
          (medianModel [0, 2]).getD 0,
          FVal.val (varianceAround [0, 2] (weightedAvg [0, 2] [1, 3])),
          [0, 2]⟩ :=
  C6_aggregation [0, 2] [1, 3] (by simp) (by norm_num)

/-- C6 counterexample: on the samples (0, area 1) and (2, area 3) the code
reports the weighted average 3/2 and the squared standard deviation 5/4
around it, while the squared standard deviation around the unweighted mean
(which is 1) equals 1; since the square root is injective on nonnegative
values, the reported standard deviation is not the one around the unweighted
mean. -/
theorem C6_std_center_counterexample :
    aggregateStats [0, 2] [1, 3] =
      Outcome.ok ⟨FVal.val (3 / 2), 2, FVal.val (5 / 4), [0, 2]⟩ ∧
    varianceAround [0, 2] (average [0, 2]) = 1 ∧
    FVal.val (5 / 4) ≠ FVal.val (varianceAround [0, 2] (average [0, 2])) := by
  refine ⟨?_, ?_, ?_⟩
  · norm_num [aggregateStats, aggAvg, medianModel, sortSamples, insertSorted,
      stdF, fsum, FVal.add, FVal.sub, FVal.mul, FVal.div]
  · norm_num [varianceAround, average]
  · norm_num [varianceAround, average]

/-- C7 (amended): for every hull oracle satisfying the spec contract
(failing on a degenerate point cloud) and every mesh whose vertex set has no
four non-coplanar points, the convex construction panics — the source
signature exposes no error channel, so the failure is not returned as a
construction error. -/
theorem C7_degenerate_hull (hull : HullFn) (m : StlMesh)
    (hc : ∀ pts, ¬FourNonCoplanar pts → ∃ e, hull pts = Except.error e)
    (hm : ¬FourNonCoplanar m.verts) :
    convexWith hull m = Outcome.fatal "convex hull construction failed" := by
  obtain ⟨e, he⟩ := hc m.verts hm
  unfold convexWith
  rw [he]

theorem C7_degenerate_hull_witness :
    convexWith hullSpecModel planarMesh =
      Outcome.fatal "convex hull construction failed" :=
  C7_degenerate_hull hullSpecModel planarMesh
    (fun pts hp => ⟨"degenerate point cloud", by simp [hullSpecModel, hp]⟩)
    (by norm_num [FourNonCoplanar, planarMesh, det3, vector_dot, vector_cross,
      Vec3.sub])

/-- C7 counterexample: on three coplanar points the convex construction
produces a panic outcome, not a (recoverable) construction error: the claim
that it fails with a degenerate-geometry construction error is false on this
input. -/
theorem C7_error_channel_counterexample :
    (convexWith hullSpecModel planarMesh).isErr = false ∧
    convexWith hullSpecModel planarMesh =
      Outcome.fatal "convex hull construction failed" := by
  have h : convexWith hullSpecModel planarMesh =
      Outcome.fatal "convex hull construction failed" := by
    have hp : ¬FourNonCoplanar planarMesh.verts := by
      norm_num [FourNonCoplanar, planarMesh, det3, vector_dot, vector_cross,
        Vec3.sub]
    unfold convexWith hullSpecModel
    rw [if_neg hp]
  exact ⟨by rw [h]; rfl, h⟩

/-- C9 (amended): whenever the chunked buffers are empty, contain an
out-of-range index, or contain a triple that does not resolve to three
distinct vertices, StlMesh::new panics with the expect message — it has no
error channel, so it never returns a construction error. -/
theorem C9_construction_panics (vertices : List ℚ) (indices : List ℕ)
    (vs : List Vec3) (is : List (ℕ × ℕ × ℕ))
    (hv : chunk3q vertices = some vs) (hi : chunk3n indices = some is)
    (hbad :
      vs = [] ∨ is = [] ∨
      (∃ t ∈ is, vs.length ≤ t.1 ∨ vs.length ≤ t.2.1 ∨ vs.length ≤ t.2.2) ∨
      (∃ t ∈ is,
        vs.getD t.1 ⟨0, 0, 0⟩ = vs.getD t.2.1 ⟨0, 0, 0⟩ ∨
        vs.getD t.1 ⟨0, 0, 0⟩ = vs.getD t.2.2 ⟨0, 0, 0⟩ ∨
        vs.getD t.2.1 ⟨0, 0, 0⟩ = vs.getD t.2.2 ⟨0, 0, 0⟩)) :
    StlMesh.new vertices indices = Outcome.fatal "Could not create trimesh" := by
  have herr : ∃ e, triMeshWithFlags vs is = Except.error e := by
    unfold triMeshWithFlags
    by_cases h1 : vs = []
    · rw [if_pos h1]; exact ⟨_, rfl⟩
    rw [if_neg h1]
    by_cases h2 : is = []
    · rw [if_pos h2]; exact ⟨_, rfl⟩
    rw [if_neg h2]
    by_cases h3 : ∃ t ∈ is, vs.length ≤ t.1 ∨ vs.length ≤ t.2.1 ∨
        vs.length ≤ t.2.2
    · rw [if_pos h3]; exact ⟨_, rfl⟩
    rw [if_neg h3]
    by_cases h4 : ∃ t ∈ is,
        vs.getD t.1 ⟨0, 0, 0⟩ = vs.getD t.2.1 ⟨0, 0, 0⟩ ∨
        vs.getD t.1 ⟨0, 0, 0⟩ = vs.getD t.2.2 ⟨0, 0, 0⟩ ∨
        vs.getD t.2.1 ⟨0, 0, 0⟩ = vs.getD t.2.2 ⟨0, 0, 0⟩
    · rw [if_pos h4]; exact ⟨_, rfl⟩
    exfalso
    rcases hbad with h | h | h | h
    · exact h1 h
    · exact h2 h
    · exact h3 h
    · exact h4 h
  obtain ⟨e, he⟩ := herr
  unfold StlMesh.new
  rw [hv, hi]
  dsimp only
  rw [he]

theorem C9_construction_panics_witness :
    StlMesh.new [] [] = Outcome.fatal "Could not create trimesh" :=
  C9_construction_panics [] [] [] [] rfl rfl (Or.inl rfl)

/-- C9 counterexample: on the empty buffers construction panics (the expect
aborts); it does not fail with a recoverable construction error. -/
theorem C9_error_channel_counterexample :
    (StlMesh.new [] []).isErr = false ∧
    StlMesh.new [] [] = Outcome.fatal "Could not create trimesh" := by
  constructor <;> rfl

/-- C10 (amended): for every ray caster whose reported impact distance never
exceeds the maximum cast distance 100 (an inclusive bound), every thickness
sample retained by calculate_thickness, under every outlier-band setting, is
at most 100. -/
theorem C10_samples_le (cast : CastFn) (area : AreaFn) (m : StlMesh)
    (outlierRange : Option OutlierLimits)
    (hcast : ∀ o d r, cast o d 100 = some r → r ≤ 100)
    (st : StatisticsM)
    (hst : calculateThickness cast area m outlierRange = Outcome.ok st) :
    ∀ s ∈ st.thicknesses, s ≤ 100 := by
  intro s hs
  unfold calculateThickness at hst
  cases hloop : thicknessLoop cast area (resolveBounds outlierRange)
      m.triangles with
  | fatal msg => rw [hloop] at hst; exact absurd hst (by simp)
  | err e => rw [hloop] at hst; exact absurd hst (by simp)
  | ok pairs =>
    rw [hloop] at hst
    have hth : st.thicknesses = pairs.map Prod.fst :=
      aggregateStats_thicknesses _ _ _ hst
    rw [hth] at hs
    obtain ⟨p, hpmem, hps⟩ := List.mem_map.mp hs
    rw [← hps]
    exact thicknessLoop_le cast area (resolveBounds outlierRange) hcast
      m.triangles pairs hloop p hpmem

theorem C10_samples_le_witness : (50 : ℚ) ≤ 100 :=
  C10_samples_le cast50 areaZero planarMesh none
    (fun o d r h => by
      injection h with h
      rw [← h]
      norm_num)
    ⟨FVal.nan, 50, FVal.nan, [50]⟩
    (by norm_num [calculateThickness, thicknessLoop, triangleSamples,
      planarMesh, StlMesh.triangles, StlMesh.vertexAt, crossEdges,
      vector_cross, Vec3.sub, cast50, areaZero, resolveBounds, f32MAX,
      aggregateStats, aggAvg, medianModel, sortSamples, insertSorted, stdF,
      fsum, FVal.add, FVal.sub, FVal.mul, FVal.div])
    50 (by simp)

/-- C10 counterexample: a caster reporting a hit at exactly the maximum cast
distance 100 in both directions (consistent with the inclusive bound) makes
the estimation retain the sample 100 under the default band, and 100 is not
strictly less than 100. -/
theorem C10_strict_counterexample :
    calculateThickness cast100 areaZero planarMesh none =
      Outcome.ok ⟨FVal.nan, 100, FVal.nan, [100]⟩ ∧
    ¬((100 : ℚ) < 100) := by
  constructor
  · norm_num [calculateThickness, thicknessLoop, triangleSamples,
      planarMesh, StlMesh.triangles, StlMesh.vertexAt, crossEdges,
      vector_cross, Vec3.sub, cast100, areaZero, resolveBounds, f32MAX,
      aggregateStats, aggAvg, medianModel, sortSamples, insertSorted, stdF,
      fsum, FVal.add, FVal.sub, FVal.mul, FVal.div]
  · norm_num

end RustyStl
